import Mathlib

/-!
Shallow embedding of the inventory/item subsystem of the cuberef game server
(src/cuberef_server/src/game_state/{items,inventory,player}.rs).

Machine integers: the Rust code stores quantities as u32. We model them as
Nat; the only unchecked u32 additions in the embedded code are the two
`+=` statements in `ItemStack::try_merge` and `ItemStack::try_merge_all`,
which we model with an explicit `% 2^32`. All subtractions in the source
are either `saturating_sub` (which coincides with Nat subtraction) or
guarded so that they cannot underflow.
-/

namespace Cuberef

/-- 2^32, the modulus of the u32 type used for stack quantities. -/
def u32Lim : Nat := 4294967296

/-- Embedding of `proto::ItemStack` (the server `ItemStack` is a transparent
wrapper `ItemStack { proto }` around it; we flatten the wrapper). Fields as
read/written by items.rs: `item_name`, `quantity`, `max_stack`, `stackable`. -/
structure ItemStack where
  item_name : String
  quantity : Nat
  max_stack : Nat
  stackable : Bool
deriving Repr, DecidableEq

namespace ItemStack

/-- Embedding of `ItemStack::from_proto` (items.rs): returns `None` when
`item_name` is empty, otherwise wraps the proto unchanged. -/
def from_proto (p : ItemStack) : Option ItemStack :=
  if p.item_name = "" then none else some p

/-- Embedding of `ItemStack::try_merge` (items.rs lines 108-139).
The Rust method mutates `self` and returns the leftover; we return the pair
(updated self, leftover). -/
def try_merge (s stack : ItemStack) : ItemStack × Option ItemStack :=
  if s.max_stack = 0 then (s, some stack)
  else if stack.max_stack = 0 then (s, some stack)
  else if s.item_name ≠ stack.item_name then (s, some stack)
  else
    let move_size := min stack.quantity (s.max_stack - s.quantity)
    let s' : ItemStack := { s with quantity := (s.quantity + move_size) % u32Lim }
    let remaining := stack.quantity - move_size
    if remaining = 0 then (s', none)
    else (s', some { stack with quantity := remaining })

/-- Embedding of `ItemStack::try_merge_all` (items.rs lines 142-162).
Returns (updated self, success flag). -/
def try_merge_all (s stack : ItemStack) : ItemStack × Bool :=
  if s.max_stack = 0 then (s, false)
  else if stack.max_stack = 0 then (s, false)
  else if s.item_name ≠ stack.item_name then (s, false)
  else
    let available_space := s.max_stack - s.quantity
    if available_space < stack.quantity then (s, false)
    else ({ s with quantity := (s.quantity + stack.quantity) % u32Lim }, true)

end ItemStack

/-- Quantity held by an optional stack slot (0 for an empty slot). -/
def optQuantity : Option ItemStack → Nat
  | none => 0
  | some s => s.quantity

namespace MaybeStack

/-- Embedding of `<Option<ItemStack> as MaybeStack>::try_merge`
(items.rs lines 190-201). Returns (updated slot, leftover). -/
def try_merge (slf other : Option ItemStack) : Option ItemStack × Option ItemStack :=
  match other with
  | some o =>
    match slf with
    | some s =>
      let r := ItemStack.try_merge s o
      (some r.1, r.2)
    | none => (some o, none)
  | none => (slf, none)

/-- Embedding of `<Option<ItemStack> as MaybeStack>::try_merge_all`
(items.rs lines 203-218). Returns (updated slot, success flag). -/
def try_merge_all (slf other : Option ItemStack) : Option ItemStack × Bool :=
  match other with
  | some o =>
    match slf with
    | some s =>
      let r := ItemStack.try_merge_all s o
      (some r.1, r.2)
    | none => (some o, true)
  | none => (slf, true)

/-- Embedding of `<Option<ItemStack> as MaybeStack>::take_items`
(items.rs lines 220-248). Returns (updated slot, taken stack). -/
def take_items (slf : Option ItemStack) (count : Option Nat) :
    Option ItemStack × Option ItemStack :=
  match count with
  | some count =>
    match slf with
    | some s =>
      if s.stackable then
        let self_count := s.quantity
        let taken := min self_count count
        let remaining := self_count - count
        if remaining = 0 then (none, some s)
        else (some { s with quantity := remaining }, some { s with quantity := taken })
      else (some s, none)
    | none => (none, none)
  | none => (none, slf)

/-- Embedding of `<Option<ItemStack> as MaybeStack>::try_take_all`
(items.rs lines 250-274). The source calls `self.as_ref().unwrap()` before
checking that the slot is non-empty, so on `(none, some count)` it panics;
the panic is modelled by the outer `none`. A normal return is
`some (updated slot, taken stack)`. -/
def try_take_all (slf : Option ItemStack) (count : Option Nat) :
    Option (Option ItemStack × Option ItemStack) :=
  match count with
  | some count =>
    match slf with
    | none => none
    | some s =>
      if s.stackable then
        let available := s.quantity
        if available = count then some (none, some s)
        else if available > count then
          some (some { s with quantity := available - count },
                some { s with quantity := count })
        else some (some s, none)
      else some (some s, none)
  | none => some (none, slf)

end MaybeStack

/-- Embedding of `items_proto::Inventory` (the persisted container record):
`height`, `width`, and one `proto::ItemStack` per slot (an empty slot is
stored as a stack with empty `item_name`). -/
structure InventoryProto where
  height : Nat
  width : Nat
  contents : List ItemStack
deriving Repr, DecidableEq

/-- Embedding of `Inventory` (inventory.rs): a key (the 128-bit uuid is
modelled as a Nat), `dimensions = (height, width)` and the slot list. -/
structure Inventory where
  key : Nat
  dimensions : Nat × Nat
  contents : List (Option ItemStack)
deriving Repr, DecidableEq

namespace Inventory

/-- Embedding of `Inventory::new` (inventory.rs lines 70-88): fails when a
dimension is zero or `height * width` overflows u32 (`checked_mul`);
otherwise all slots start empty. The random uuid is passed in as `key`. -/
def new (key : Nat) (dimensions : Nat × Nat) : Option Inventory :=
  if dimensions.1 = 0 then none
  else if dimensions.2 = 0 then none
  else if u32Lim ≤ dimensions.1 * dimensions.2 then none
  else some { key := key, dimensions := dimensions,
              contents := List.replicate (dimensions.1 * dimensions.2) none }

/-- Embedding of `Inventory::from_proto` (inventory.rs lines 90-103): fails
when `width * height` overflows u32, when it differs from the slot count, or
when it is zero; each stored slot is decoded with `ItemStack::from_proto`. -/
def from_proto (proto : InventoryProto) (key : Nat) : Option Inventory :=
  let size := proto.width * proto.height
  if u32Lim ≤ size then none
  else if size ≠ proto.contents.length then none
  else if size = 0 then none
  else some { key := key, dimensions := (proto.height, proto.width),
              contents := proto.contents.map ItemStack.from_proto }

/-- Embedding of `Inventory::to_proto` (inventory.rs lines 105-124): an empty
slot is written as a stack with empty name and all-zero fields. -/
def to_proto (inv : Inventory) : InventoryProto :=
  { height := inv.dimensions.1
    width := inv.dimensions.2
    contents := inv.contents.map fun x =>
      match x with
      | some s => s
      | none => { item_name := "", quantity := 0, max_stack := 0, stackable := false } }

/-- First loop of `Inventory::try_insert` (inventory.rs lines 141-148): walk
the occupied slots (`iter_mut().flatten()`), merging the stack into each in
turn; stops early when nothing is left. Returns (updated slots, leftover). -/
def insertMergeLoop : List (Option ItemStack) → ItemStack →
    List (Option ItemStack) × Option ItemStack
  | [], stack => ([], some stack)
  | none :: rest, stack =>
    let r := insertMergeLoop rest stack
    (none :: r.1, r.2)
  | some s :: rest, stack =>
    match ItemStack.try_merge s stack with
    | (s', none) => (some s' :: rest, none)
    | (s', some remaining) =>
      let r := insertMergeLoop rest remaining
      (some s' :: r.1, r.2)

/-- Second loop of `Inventory::try_insert` (inventory.rs lines 150-155): put
the whole remaining stack into the first empty slot, if any. -/
def placeInEmptyLoop : List (Option ItemStack) → ItemStack →
    List (Option ItemStack) × Option ItemStack
  | [], stack => ([], some stack)
  | none :: rest, stack => (some stack :: rest, none)
  | some s :: rest, stack =>
    let r := placeInEmptyLoop rest stack
    (some s :: r.1, r.2)

/-- Embedding of `Inventory::try_insert` (inventory.rs lines 139-157).
Returns (updated inventory, leftover). -/
def try_insert (inv : Inventory) (stack : ItemStack) : Inventory × Option ItemStack :=
  let m := insertMergeLoop inv.contents stack
  match m.2 with
  | none => ({ inv with contents := m.1 }, none)
  | some remaining =>
    let p := placeInEmptyLoop m.1 remaining
    ({ inv with contents := p.1 }, p.2)

end Inventory

/-- State of the `InventoryManager`: the key-value store restricted to the
inventory keyspace (serialization is lossless, so protos are stored
directly) together with the list of broadcast change notifications. -/
structure ManagerState where
  db : List (Nat × InventoryProto)
  broadcasts : List Nat
deriving Repr, DecidableEq

/-- `db.get` on the inventory keyspace: first binding for the key, if any. -/
def dbGet (db : List (Nat × InventoryProto)) (key : Nat) : Option InventoryProto :=
  match db.find? (fun kv => kv.1 = key) with
  | some kv => some kv.2
  | none => none

/-- `db.put` on the inventory keyspace: full overwrite of the key's value. -/
def dbPut (db : List (Nat × InventoryProto)) (key : Nat) (v : InventoryProto) :
    List (Nat × InventoryProto) :=
  match db with
  | [] => [(key, v)]
  | kv :: rest => if kv.1 = key then (key, v) :: rest else kv :: dbPut rest key v

namespace InventoryManager

/-- Embedding of `InventoryManager::mutate_inventory_atomically`
(inventory.rs lines 201-222). The mutator receives the decoded inventory and
returns the (possibly) mutated inventory plus its `Result`; the source then
unconditionally re-persists the inventory and broadcasts an update before
returning the mutator's result. A missing key bails before any write. -/
def mutate_inventory_atomically {T : Type} (st : ManagerState) (key : Nat)
    (mutator : Inventory → Inventory × Except String T) :
    Except String T × ManagerState :=
  match dbGet st.db key with
  | none => (Except.error "Inventory ID not found", st)
  | some proto =>
    match Inventory.from_proto proto key with
    | none => (Except.error "Inventory decode failed", st)
    | some inv =>
      let r := mutator inv
      (r.2, { db := dbPut st.db key r.1.to_proto,
              broadcasts := st.broadcasts ++ [key] })

/-- The load phase of `mutate_inventories_atomically`: read and decode every
key in order, bailing at the first missing or undecodable one. -/
def loadAll (db : List (Nat × InventoryProto)) : List Nat → Option (List Inventory)
  | [] => some []
  | key :: rest =>
    match dbGet db key with
    | none => none
    | some proto =>
      match Inventory.from_proto proto key with
      | none => none
      | some inv =>
        match loadAll db rest with
        | none => none
        | some invs => some (inv :: invs)

/-- The store phase of `mutate_inventories_atomically`: persist every
inventory under its own key and broadcast each key, in order. -/
def storeAll (st : ManagerState) : List Inventory → ManagerState
  | [] => st
  | inv :: rest =>
    storeAll { db := dbPut st.db inv.key inv.to_proto,
               broadcasts := st.broadcasts ++ [inv.key] } rest

/-- Embedding of `InventoryManager::mutate_inventories_atomically`
(inventory.rs lines 229-260): load all inventories (bailing before any write
if one is missing), run the mutator, then unconditionally persist and
broadcast every inventory in the mutated vector, returning the mutator's
result. -/
def mutate_inventories_atomically {T : Type} (st : ManagerState) (keys : List Nat)
    (mutator : List Inventory → List Inventory × Except String T) :
    Except String T × ManagerState :=
  match loadAll st.db keys with
  | none => (Except.error "Inventory ID not found", st)
  | some invs =>
    let r := mutator invs
    (r.2, storeAll st r.1)

end InventoryManager

/-- Embedding of `BorrowedStack` (inventory.rs lines 291-296): a stack plus
the optional `(inventory key, slot offset)` it was borrowed from. -/
structure BorrowedStack where
  borrows_from : Option (Nat × Nat)
  borrowed_stack : ItemStack
deriving Repr, DecidableEq

namespace InventoryView

/-- Embedding of `InventoryView::clear` (inventory.rs lines 412-416) as it
acts on the manager state for a Transient view: the source only logs
`"TODO drop transient"` and performs no state change, so the borrowed stacks
are discarded and no container is touched. `Drop` (lines 547-551) calls
`clear`. -/
def clear (st : ManagerState) (_transient_data : List (Option BorrowedStack)) :
    ManagerState :=
  st

end InventoryView

namespace PlayerManager

/-- Embedding of the control flow of `PlayerManager::writeback_loop`
(player.rs lines 274-287). Each entry of `flushes` is the `Result` of the
`flush()` call of one wakeup cycle; the list ends at the cycle where the
shutdown cancellation would be observed. The loop body runs
`self.flush()?`, so an error propagates out of the loop immediately.
Returns (number of flush calls executed, the loop's own result). -/
def writeback_loop : List (Except String Unit) → Nat × Except String Unit
  | [] => (0, Except.ok ())
  | f :: rest =>
    match f with
    | Except.error e => (1, Except.error e)
    | Except.ok () =>
      let r := writeback_loop rest
      (r.1 + 1, r.2)

end PlayerManager

/-- The spec's stack invariant: quantity at least 1 and a non-empty item
type. -/
def goodStack (s : ItemStack) : Prop :=
  1 ≤ s.quantity ∧ s.item_name ≠ ""

/-- Validity of the u32 fields of a stack (both fit in a u32). -/
def validStack (s : ItemStack) : Prop :=
  s.quantity < u32Lim ∧ s.max_stack < u32Lim

/-- Total quantity held by a slot list. -/
def invQuantity (l : List (Option ItemStack)) : Nat :=
  (l.map optQuantity).sum

/-- The container shape invariant: `len(slots) == height * width`. -/
def shapeInvariant (inv : Inventory) : Prop :=
  inv.contents.length = inv.dimensions.1 * inv.dimensions.2

instance (s : ItemStack) : Decidable (goodStack s) := by
  unfold goodStack
  infer_instance

instance (s : ItemStack) : Decidable (validStack s) := by
  unfold validStack
  infer_instance

instance (inv : Inventory) : Decidable (shapeInvariant inv) := by
  unfold shapeInvariant
  infer_instance

/-- Claim C2, counterexample: merging a stack of quantity 300 / max 256 into
an empty optional slot does not cap at 256 with a 44 leftover; the
optional-slot `try_merge` moves the whole stack into the empty slot and
returns no leftover. -/
theorem c2_counterexample_empty_slot_not_capped :
    MaybeStack.try_merge none (some ⟨"item", 300, 256, true⟩)
      = (some ⟨"item", 300, 256, true⟩, none)
    ∧ ¬(optQuantity (MaybeStack.try_merge none (some ⟨"item", 300, 256, true⟩)).1 = 256
        ∧ optQuantity (MaybeStack.try_merge none (some ⟨"item", 300, 256, true⟩)).2 = 44) := by
  decide

/-- Claim C2, amended: for a 1x1 container with an empty slot, merging a
stack with quantity 300, max_quantity 256, stackable true via the
optional-slot `try_merge` moves the entire stack into the slot: the slot
then holds the full 300-quantity stack and no leftover is returned. The
same happens through `Inventory::try_insert` on the freshly created 1x1
container. -/
theorem c2_empty_slot_merge_takes_whole_stack :
    MaybeStack.try_merge none (some ⟨"item", 300, 256, true⟩)
      = (some ⟨"item", 300, 256, true⟩, none)
    ∧ (Inventory.new 7 (1, 1)).map (fun inv => inv.try_insert ⟨"item", 300, 256, true⟩)
      = some ({ key := 7, dimensions := (1, 1),
                contents := [some ⟨"item", 300, 256, true⟩] }, none) := by
  decide

/-- Claim C3: `try_take_all` with a specific count on an empty slot panics
(the source unwraps the option before checking it), instead of failing
gracefully with the slot untouched; the panic is the outer `none` of the
embedding. By contrast, the "all" request on an empty slot returns without
panicking. -/
theorem c3_try_take_all_panics_on_empty_slot :
    MaybeStack.try_take_all none (some 1) = none
    ∧ MaybeStack.try_take_all none none = some (none, none) := by
  decide

/-- Claim C4: destroying (clearing) a Transient view holding a
`BorrowedStack` with origin `(0, 0)` does not return the stack to container
0: `clear` is a stub that leaves the manager state unchanged, so the
container keeps its empty slot and the borrowed items are discarded. -/
theorem c4_clear_discards_borrowed_stack :
    InventoryView.clear
        { db := [(0, { height := 1, width := 1,
                       contents := [{ item_name := "", quantity := 0,
                                      max_stack := 0, stackable := false }] })],
          broadcasts := [] }
        [some { borrows_from := some (0, 0),
                borrowed_stack := ⟨"item", 7, 10, true⟩ }]
      = { db := [(0, { height := 1, width := 1,
                       contents := [{ item_name := "", quantity := 0,
                                      max_stack := 0, stackable := false }] })],
          broadcasts := [] } := by
  decide

/-- Claim C5, counterexample: with a schedule of two writeback cycles whose
first flush fails, the loop executes only one flush and returns the error;
it does not continue to the second cycle. -/
theorem c5_counterexample_failed_flush_stops_loop :
    PlayerManager.writeback_loop [Except.error "disk", Except.ok ()]
      = (1, Except.error "disk")
    ∧ (PlayerManager.writeback_loop [Except.error "disk", Except.ok ()]).1 ≠ 2 :=
  ⟨rfl, by decide⟩

/-- Claim C5, amended: the first failing flush aborts the writeback loop.
After any number of successful cycles, a cycle whose flush fails makes the
loop return that error immediately; none of the remaining scheduled cycles
is executed. -/
theorem c5_failed_flush_aborts_writeback_loop (n : Nat) (e : String)
    (post : List (Except String Unit)) :
    PlayerManager.writeback_loop
        (List.replicate n (Except.ok ()) ++ Except.error e :: post)
      = (n + 1, Except.error e) := by
  induction n with
  | zero => rfl
  | succ k ih =>
    simp only [List.replicate_succ, List.cons_append, PlayerManager.writeback_loop,
      List.append_eq, ih]

/-- Quantity conservation of `ItemStack::try_merge`, in every branch: the
updated self plus the leftover carry exactly the quantities of the two
inputs, as long as the inputs are valid u32 values (so the single u32
addition cannot wrap). -/
theorem try_merge_conserves_qty (s o : ItemStack)
    (hq : s.quantity < u32Lim) (hm : s.max_stack < u32Lim) :
    (ItemStack.try_merge s o).1.quantity + optQuantity (ItemStack.try_merge s o).2
      = s.quantity + o.quantity := by
  unfold ItemStack.try_merge
  have hmove : min o.quantity (s.max_stack - s.quantity) ≤ s.max_stack - s.quantity :=
    min_le_right _ _
  have hmove2 : min o.quantity (s.max_stack - s.quantity) ≤ o.quantity :=
    min_le_left _ _
  have hlt : s.quantity + min o.quantity (s.max_stack - s.quantity) < u32Lim := by omega
  split_ifs with h1 h2 h3
  · simp [optQuantity]
  · simp [optQuantity]
  · simp [optQuantity]
  · dsimp only
    rw [Nat.mod_eq_of_lt hlt]
    split_ifs with h4 <;> simp [optQuantity] <;> omega

/-- Claim C6: for compatible stacks (same item type, both stackable with a
non-zero max, valid u32 self quantities), `try_merge` conserves quantity:
updated self quantity plus leftover quantity equals the sum of the two input
quantities, the leftover contributing 0 when it is absent. -/
theorem c6_try_merge_conserves_quantity (s o : ItemStack)
    (_hname : s.item_name = o.item_name)
    (_hsstk : s.stackable = true) (_hostk : o.stackable = true)
    (_hs : s.max_stack ≠ 0) (_ho : o.max_stack ≠ 0)
    (hq : s.quantity < u32Lim) (hm : s.max_stack < u32Lim) :
    (ItemStack.try_merge s o).1.quantity + optQuantity (ItemStack.try_merge s o).2
      = s.quantity + o.quantity :=
  try_merge_conserves_qty s o hq hm

/-- Witness for claim C6 at a concrete compatible pair: merging 100 into a
200/256 stack gives 256 in self and 44 left over, conserving 300. -/
theorem c6_witness :
    (ItemStack.try_merge ⟨"i", 200, 256, true⟩ ⟨"i", 100, 256, true⟩).1.quantity
        + optQuantity (ItemStack.try_merge ⟨"i", 200, 256, true⟩ ⟨"i", 100, 256, true⟩).2
      = 200 + 100 :=
  c6_try_merge_conserves_quantity ⟨"i", 200, 256, true⟩ ⟨"i", 100, 256, true⟩
    rfl rfl rfl (by decide) (by decide) (by decide) (by decide)

/-- Claim C7: `take_items` on a slot holding a stackable stack never returns
more than the lesser of the requested count and the pre-call quantity, the
post-call slot quantity plus the returned quantity equals the pre-call
quantity, and a slot left with zero quantity is actually cleared. -/
theorem c7_take_items_bounds (s : ItemStack) (count : Option Nat)
    (hstk : s.stackable = true) :
    optQuantity (MaybeStack.take_items (some s) count).1
        + optQuantity (MaybeStack.take_items (some s) count).2 = s.quantity
    ∧ optQuantity (MaybeStack.take_items (some s) count).2 ≤ s.quantity
    ∧ (∀ c, count = some c → optQuantity (MaybeStack.take_items (some s) count).2 ≤ c)
    ∧ (optQuantity (MaybeStack.take_items (some s) count).1 = 0
        → (MaybeStack.take_items (some s) count).1 = none) := by
  cases count with
  | none => simp [MaybeStack.take_items, optQuantity]
  | some c =>
    simp only [MaybeStack.take_items, hstk, if_true]
    split_ifs with h <;> simp_all [optQuantity] <;> omega

/-- Witness for claim C7: taking 3 from a stackable stack of 5 leaves 2 and
returns 3, conserving the total. -/
theorem c7_witness :
    optQuantity (MaybeStack.take_items (some ⟨"i", 5, 10, true⟩) (some 3)).1
        + optQuantity (MaybeStack.take_items (some ⟨"i", 5, 10, true⟩) (some 3)).2 = 5
    ∧ optQuantity (MaybeStack.take_items (some ⟨"i", 5, 10, true⟩) (some 3)).2 ≤ 5
    ∧ (∀ c, (some 3 : Option Nat) = some c
        → optQuantity (MaybeStack.take_items (some ⟨"i", 5, 10, true⟩) (some 3)).2 ≤ c)
    ∧ (optQuantity (MaybeStack.take_items (some ⟨"i", 5, 10, true⟩) (some 3)).1 = 0
        → (MaybeStack.take_items (some ⟨"i", 5, 10, true⟩) (some 3)).1 = none) :=
  c7_take_items_bounds ⟨"i", 5, 10, true⟩ (some 3) rfl

/-- Claim C9, counterexample: the code does materialize stacks with quantity
0. `from_proto` accepts a stored record with non-empty name and quantity 0,
and `take_items` with a requested count of 0 returns a zero-quantity stack
(as does `try_take_all`). -/
theorem c9_counterexample_zero_quantity_stacks :
    ItemStack.from_proto ⟨"x", 0, 0, false⟩ = some ⟨"x", 0, 0, false⟩
    ∧ MaybeStack.take_items (some ⟨"i", 5, 10, true⟩) (some 0)
      = (some ⟨"i", 5, 10, true⟩, some ⟨"i", 0, 10, true⟩)
    ∧ MaybeStack.try_take_all (some ⟨"i", 5, 10, true⟩) (some 0)
      = some (some ⟨"i", 5, 10, true⟩, some ⟨"i", 0, 10, true⟩) := by
  decide

/-- The merge loop of `try_insert` conserves total quantity: slots plus
leftover afterwards carry the slots plus the inserted stack beforehand. -/
theorem insertMergeLoop_conserves (l : List (Option ItemStack)) (stack : ItemStack)
    (hval : ∀ s : ItemStack, some s ∈ l → validStack s) :
    invQuantity (Inventory.insertMergeLoop l stack).1
        + optQuantity (Inventory.insertMergeLoop l stack).2
      = invQuantity l + stack.quantity := by
  induction l generalizing stack with
  | nil => simp [Inventory.insertMergeLoop, invQuantity, optQuantity]
  | cons hd tl ih =>
    cases hd with
    | none =>
      have := ih stack (fun s hs => hval s (List.mem_cons_of_mem _ hs))
      simp only [Inventory.insertMergeLoop, invQuantity, List.map_cons, List.sum_cons,
        optQuantity] at *
      omega
    | some s =>
      have hv := hval s (List.mem_cons_self _ _)
      have hcons := try_merge_conserves_qty s stack hv.1 hv.2
      simp only [Inventory.insertMergeLoop]
      cases hm : ItemStack.try_merge s stack with
      | mk s' left =>
        cases left with
        | none =>
          simp only [invQuantity, List.map_cons, List.sum_cons, optQuantity]
          rw [hm] at hcons
          simp [optQuantity] at hcons
          omega
        | some rem =>
          have := ih rem (fun s2 hs => hval s2 (List.mem_cons_of_mem _ hs))
          rw [hm] at hcons
          simp only [optQuantity] at hcons
          simp only [invQuantity, List.map_cons, List.sum_cons, optQuantity] at *
          omega

/-- The merge loop of `try_insert` only touches occupied slots, so an empty
slot stays present. -/
theorem insertMergeLoop_keeps_empty (l : List (Option ItemStack)) (stack : ItemStack)
    (h : none ∈ l) : none ∈ (Inventory.insertMergeLoop l stack).1 := by
  induction l generalizing stack with
  | nil => simp at h
  | cons hd tl ih =>
    cases hd with
    | none => simp [Inventory.insertMergeLoop]
    | some s =>
      have htl : none ∈ tl := by
        rcases List.mem_cons.mp h with h1 | h2
        · exact absurd h1 (by simp)
        · exact h2
      simp only [Inventory.insertMergeLoop]
      cases hm : ItemStack.try_merge s stack with
      | mk s' left =>
        cases left with
        | none => exact List.mem_cons_of_mem _ htl
        | some rem => exact List.mem_cons_of_mem _ (ih rem htl)

/-- The placement loop of `try_insert` conserves total quantity. -/
theorem placeInEmptyLoop_conserves (l : List (Option ItemStack)) (stack : ItemStack) :
    invQuantity (Inventory.placeInEmptyLoop l stack).1
        + optQuantity (Inventory.placeInEmptyLoop l stack).2
      = invQuantity l + stack.quantity := by
  induction l with
  | nil => simp [Inventory.placeInEmptyLoop, invQuantity, optQuantity]
  | cons hd tl ih =>
    cases hd with
    | none => simp [Inventory.placeInEmptyLoop, invQuantity, optQuantity]; omega
    | some s =>
      simp only [Inventory.placeInEmptyLoop, invQuantity, List.map_cons, List.sum_cons,
        optQuantity] at *
      omega

/-- The placement loop of `try_insert` succeeds whenever an empty slot
exists. -/
theorem placeInEmptyLoop_fills (l : List (Option ItemStack)) (stack : ItemStack)
    (h : none ∈ l) : (Inventory.placeInEmptyLoop l stack).2 = none := by
  induction l with
  | nil => simp at h
  | cons hd tl ih =>
    cases hd with
    | none => simp [Inventory.placeInEmptyLoop]
    | some s =>
      have htl : none ∈ tl := by
        rcases List.mem_cons.mp h with h1 | h2
        · exact absurd h1 (by simp)
        · exact h2
      simpa [Inventory.placeInEmptyLoop] using ih htl

/-- Claim C10: `Inventory::try_insert` conserves total quantity (slot sum
before plus inserted quantity equals slot sum after plus leftover quantity),
and whenever the inventory has an empty slot the whole stack is placed and
no leftover is returned, for inventories whose stacks carry valid u32
quantities. -/
theorem c10_try_insert_conserves (inv : Inventory) (stack : ItemStack)
    (hval : ∀ s : ItemStack, some s ∈ inv.contents → validStack s) :
    invQuantity (inv.try_insert stack).1.contents
        + optQuantity (inv.try_insert stack).2
      = invQuantity inv.contents + stack.quantity
    ∧ (none ∈ inv.contents → (inv.try_insert stack).2 = none) := by
  unfold Inventory.try_insert
  have hcons := insertMergeLoop_conserves inv.contents stack hval
  cases hm : (Inventory.insertMergeLoop inv.contents stack).2 with
  | none =>
    rw [hm] at hcons
    simp only [hm, optQuantity] at hcons ⊢
    exact ⟨by omega, fun _ => trivial⟩
  | some rem =>
    rw [hm] at hcons
    have hp := placeInEmptyLoop_conserves (Inventory.insertMergeLoop inv.contents stack).1 rem
    simp only [hm, optQuantity] at hcons hp ⊢
    refine ⟨by omega, fun hmem => ?_⟩
    exact placeInEmptyLoop_fills _ rem (insertMergeLoop_keeps_empty inv.contents stack hmem)

/-- Witness for claim C10: inserting 100 units into a 1x2 inventory holding
200/256 of the item and an empty slot conserves quantity and leaves no
leftover. -/
theorem c10_witness :
    invQuantity (Inventory.try_insert
          ⟨0, (1, 2), [some ⟨"i", 200, 256, true⟩, none]⟩ ⟨"i", 100, 256, true⟩).1.contents
        + optQuantity (Inventory.try_insert
          ⟨0, (1, 2), [some ⟨"i", 200, 256, true⟩, none]⟩ ⟨"i", 100, 256, true⟩).2
      = invQuantity [some ⟨"i", 200, 256, true⟩, none]
          + (⟨"i", 100, 256, true⟩ : ItemStack).quantity
    ∧ (none ∈ [some (⟨"i", 200, 256, true⟩ : ItemStack), none]
        → (Inventory.try_insert
            ⟨0, (1, 2), [some ⟨"i", 200, 256, true⟩, none]⟩ ⟨"i", 100, 256, true⟩).2 = none) :=
  c10_try_insert_conserves ⟨0, (1, 2), [some ⟨"i", 200, 256, true⟩, none]⟩
    ⟨"i", 100, 256, true⟩
    (by intro s hs; simp at hs; subst hs; decide)

/-- Claim C1, counterexample: `mutate_inventories_atomically` over two
existing keys with a mutator that mutates both containers and then returns
an error still persists both mutated containers and broadcasts both keys,
so the persisted containers differ from their pre-call values. -/
theorem c1_counterexample_error_still_persists :
    InventoryManager.mutate_inventories_atomically (T := Unit)
        { db := [(0, { height := 1, width := 1,
                       contents := [{ item_name := "", quantity := 0,
                                      max_stack := 0, stackable := false }] }),
                 (1, { height := 1, width := 1,
                       contents := [{ item_name := "", quantity := 0,
                                      max_stack := 0, stackable := false }] })],
          broadcasts := [] }
        [0, 1]
        (fun invs => (invs.map (fun inv => { inv with contents := [some ⟨"i", 5, 10, true⟩] }),
                      Except.error "mutator failed"))
      = (Except.error "mutator failed",
         { db := [(0, { height := 1, width := 1, contents := [⟨"i", 5, 10, true⟩] }),
                  (1, { height := 1, width := 1, contents := [⟨"i", 5, 10, true⟩] })],
           broadcasts := [0, 1] })
    ∧ ({ height := 1, width := 1, contents := [⟨"i", 5, 10, true⟩] } : InventoryProto)
        ≠ { height := 1, width := 1,
            contents := [{ item_name := "", quantity := 0,
                           max_stack := 0, stackable := false }] } :=
  ⟨rfl, by decide⟩

/-- Claim C1, amended: when the keys exist and decode, `mutate_one` and
`mutate_many` persist every loaded container and publish one change
notification per key regardless of whether the mutator succeeded or
returned an error; the mutator's result is returned to the caller but
nothing is rolled back. -/
theorem c1_amended_mutate_persists_regardless :
    (∀ (st : ManagerState) (k : Nat) (p : InventoryProto) (inv : Inventory)
        (mutator : Inventory → Inventory × Except String Unit),
        dbGet st.db k = some p → Inventory.from_proto p k = some inv →
        InventoryManager.mutate_inventory_atomically st k mutator
          = ((mutator inv).2, { db := dbPut st.db k (mutator inv).1.to_proto,
                                broadcasts := st.broadcasts ++ [k] }))
    ∧ (∀ (st : ManagerState) (keys : List Nat) (invs : List Inventory)
        (mutator : List Inventory → List Inventory × Except String Unit),
        InventoryManager.loadAll st.db keys = some invs →
        InventoryManager.mutate_inventories_atomically st keys mutator
          = ((mutator invs).2, InventoryManager.storeAll st (mutator invs).1)) := by
  constructor
  · intro st k p inv mutator h1 h2
    simp only [InventoryManager.mutate_inventory_atomically, h1, h2]
  · intro st keys invs mutator h
    simp only [InventoryManager.mutate_inventories_atomically, h]

/-- Witness for claim C1 (amended) at a one-key store with an error-returning
mutator. -/
theorem c1_witness :
    InventoryManager.mutate_inventory_atomically (T := Unit)
        { db := [(0, { height := 1, width := 1,
                       contents := [{ item_name := "", quantity := 0,
                                      max_stack := 0, stackable := false }] })],
          broadcasts := [] }
        0 (fun inv => (inv, Except.error "boom"))
      = (Except.error "boom",
         { db := dbPut [(0, { height := 1, width := 1,
                              contents := [{ item_name := "", quantity := 0,
                                             max_stack := 0, stackable := false }] })]
                   0 (Inventory.to_proto ⟨0, (1, 1), [none]⟩),
           broadcasts := ([] : List Nat) ++ [0] }) :=
  c1_amended_mutate_persists_regardless.1
    { db := [(0, { height := 1, width := 1,
                   contents := [{ item_name := "", quantity := 0,
                                  max_stack := 0, stackable := false }] })],
      broadcasts := [] }
    0
    { height := 1, width := 1,
      contents := [{ item_name := "", quantity := 0, max_stack := 0, stackable := false }] }
    ⟨0, (1, 1), [none]⟩
    (fun inv => (inv, Except.error "boom"))
    rfl rfl

/-- Claim C8, counterexample: the mutator passed to the mutate entry point
receives the whole container, not just a slice of slots: its `dimensions`
field is public, so a mutator can change the shape, and the manager persists
a container record whose slot count (1) differs from height*width (4). -/
theorem c8_counterexample_mutator_can_change_shape :
    (InventoryManager.mutate_inventory_atomically (T := Unit)
        { db := [(0, { height := 1, width := 1,
                       contents := [{ item_name := "", quantity := 0,
                                      max_stack := 0, stackable := false }] })],
          broadcasts := [] }
        0 (fun inv => ({ inv with dimensions := (2, 2) }, Except.ok ()))).2.db
      = [(0, { height := 2, width := 2,
               contents := [{ item_name := "", quantity := 0,
                              max_stack := 0, stackable := false }] })]
    ∧ ([{ item_name := "", quantity := 0, max_stack := 0,
          stackable := false }] : List ItemStack).length ≠ 2 * 2 :=
  ⟨rfl, by decide⟩

/-- Claim C8, amended: `len(slots) == height*width` holds after creation
(`Inventory::new`) and after decoding from the store (`from_proto`), and any
mutation that only writes slots through the fixed-length `contents_mut`
slice (modelled as `List.set`) preserves it; a mutator can, however, break
it by writing the public `dimensions` field. -/
theorem c8_shape_invariant (k k2 h w i : Nat) (p : InventoryProto)
    (inv inv2 : Inventory) (v : Option ItemStack) :
    (Inventory.new k (h, w) = some inv → shapeInvariant inv)
    ∧ (Inventory.from_proto p k2 = some inv2 → shapeInvariant inv2)
    ∧ (shapeInvariant inv2
        → shapeInvariant { inv2 with contents := inv2.contents.set i v }) := by
  refine ⟨?_, ?_, ?_⟩
  · intro hnew
    unfold Inventory.new at hnew
    split_ifs at hnew with h1 h2 h3
    simp only [Option.some.injEq] at hnew
    subst hnew
    simp [shapeInvariant]
  · intro hdec
    unfold Inventory.from_proto at hdec
    dsimp only at hdec
    split_ifs at hdec with h1 h2 h3
    simp only [Option.some.injEq] at hdec
    subst hdec
    simp only [shapeInvariant, List.length_map]
    rw [Nat.mul_comm p.height p.width]
    omega
  · intro hinv
    simp only [shapeInvariant, List.length_set] at *
    exact hinv

/-- Witness for claim C8 (amended) on concrete 2x2 and 1x1 containers. -/
theorem c8_witness :
    (Inventory.new 3 (2, 2) = some ⟨3, (2, 2), [none, none, none, none]⟩
      → shapeInvariant ⟨3, (2, 2), [none, none, none, none]⟩)
    ∧ (Inventory.from_proto
          { height := 1, width := 1,
            contents := [{ item_name := "", quantity := 0,
                           max_stack := 0, stackable := false }] } 0
        = some ⟨0, (1, 1), [none]⟩ → shapeInvariant ⟨0, (1, 1), [none]⟩)
    ∧ (shapeInvariant ⟨0, (1, 1), [none]⟩
        → shapeInvariant { key := 0, dimensions := (1, 1),
                           contents := ([none] : List (Option ItemStack)).set 0
                             (some ⟨"i", 5, 10, true⟩) }) :=
  c8_shape_invariant 3 0 2 2 0
    { height := 1, width := 1,
      contents := [{ item_name := "", quantity := 0, max_stack := 0, stackable := false }] }
    ⟨3, (2, 2), [none, none, none, none]⟩ ⟨0, (1, 1), [none]⟩ (some ⟨"i", 5, 10, true⟩)

/-- Claim C9, amended: the merge/take operations preserve the stack
invariant — every stack they materialize has quantity at least 1 and a
non-empty item type — provided their input stacks satisfy the invariant
(with valid u32 fields for the merges) and any specific requested count is
at least 1. `from_proto`, by contrast, guarantees only a non-empty item
type: it accepts a stored record with quantity 0 (see the counterexample),
so absence is detected solely by the empty item_type sentinel. -/
theorem c9_stack_invariant_preserved :
    (∀ s o s2 : ItemStack, ∀ lo : Option ItemStack,
      goodStack s → goodStack o → validStack s →
      ItemStack.try_merge s o = (s2, lo) →
      goodStack s2 ∧ ∀ r : ItemStack, lo = some r → goodStack r)
    ∧ (∀ s o s2 : ItemStack, ∀ b : Bool,
      goodStack s → goodStack o → validStack s →
      ItemStack.try_merge_all s o = (s2, b) → goodStack s2)
    ∧ (∀ (s : ItemStack) (count : Option Nat) (slot2 taken : Option ItemStack),
      goodStack s → (count = none ∨ ∃ c, count = some c ∧ 1 ≤ c) →
      MaybeStack.take_items (some s) count = (slot2, taken) →
      (∀ r : ItemStack, slot2 = some r → goodStack r)
      ∧ ∀ r : ItemStack, taken = some r → goodStack r)
    ∧ (∀ (s : ItemStack) (count : Option Nat) (slot2 taken : Option ItemStack),
      goodStack s → (count = none ∨ ∃ c, count = some c ∧ 1 ≤ c) →
      MaybeStack.try_take_all (some s) count = some (slot2, taken) →
      (∀ r : ItemStack, slot2 = some r → goodStack r)
      ∧ ∀ r : ItemStack, taken = some r → goodStack r)
    ∧ (∀ p s : ItemStack, ItemStack.from_proto p = some s → s.item_name ≠ "") := by
  refine ⟨?_, ?_, ?_, ?_, ?_⟩
  · intro s o s2 lo hs ho hv h
    obtain ⟨hs1, hs2⟩ := hs
    obtain ⟨ho1, ho2⟩ := ho
    obtain ⟨hv1, hv2⟩ := hv
    have hmr := min_le_right o.quantity (s.max_stack - s.quantity)
    have hml := min_le_left o.quantity (s.max_stack - s.quantity)
    have hlt : s.quantity + min o.quantity (s.max_stack - s.quantity) < u32Lim := by omega
    unfold ItemStack.try_merge at h
    split_ifs at h with h1 h2 h3
    · injection h with e1 e2
      subst e1
      subst e2
      exact ⟨⟨hs1, hs2⟩, fun r hr => by
        injection hr with e
        subst e
        exact ⟨ho1, ho2⟩⟩
    · injection h with e1 e2
      subst e1
      subst e2
      exact ⟨⟨hs1, hs2⟩, fun r hr => by
        injection hr with e
        subst e
        exact ⟨ho1, ho2⟩⟩
    · injection h with e1 e2
      subst e1
      subst e2
      exact ⟨⟨hs1, hs2⟩, fun r hr => by
        injection hr with e
        subst e
        exact ⟨ho1, ho2⟩⟩
    · dsimp only at h
      rw [Nat.mod_eq_of_lt hlt] at h
      split_ifs at h with h4
      · injection h with e1 e2
        subst e1
        subst e2
        refine ⟨⟨?_, hs2⟩, fun r hr => nomatch hr⟩
        show 1 ≤ s.quantity + min o.quantity (s.max_stack - s.quantity)
        omega
      · injection h with e1 e2
        subst e1
        subst e2
        refine ⟨⟨?_, hs2⟩, fun r hr => ?_⟩
        · show 1 ≤ s.quantity + min o.quantity (s.max_stack - s.quantity)
          omega
        · injection hr with e
          subst e
          refine ⟨?_, ho2⟩
          show 1 ≤ o.quantity - min o.quantity (s.max_stack - s.quantity)
          omega
  · intro s o s2 b hs ho hv h
    obtain ⟨hs1, hs2⟩ := hs
    obtain ⟨hv1, hv2⟩ := hv
    unfold ItemStack.try_merge_all at h
    split_ifs at h with h1 h2 h3
    · injection h with e1 e2
      subst e1
      exact ⟨hs1, hs2⟩
    · injection h with e1 e2
      subst e1
      exact ⟨hs1, hs2⟩
    · injection h with e1 e2
      subst e1
      exact ⟨hs1, hs2⟩
    · dsimp only at h
      split_ifs at h with h4
      · injection h with e1 e2
        subst e1
        exact ⟨hs1, hs2⟩
      · have hlt : s.quantity + o.quantity < u32Lim := by omega
        rw [Nat.mod_eq_of_lt hlt] at h
        injection h with e1 e2
        subst e1
        refine ⟨?_, hs2⟩
        show 1 ≤ s.quantity + o.quantity
        omega
  · intro s count slot2 taken hs hcount h
    obtain ⟨hs1, hs2⟩ := hs
    rcases hcount with rfl | ⟨c, rfl, hc⟩
    · unfold MaybeStack.take_items at h
      injection h with e1 e2
      subst e1
      subst e2
      exact ⟨(fun r hr => nomatch hr), fun r hr => by
        injection hr with e
        subst e
        exact ⟨hs1, hs2⟩⟩
    · unfold MaybeStack.take_items at h
      dsimp only at h
      split_ifs at h with hstk h0
      · injection h with e1 e2
        subst e1
        subst e2
        exact ⟨(fun r hr => nomatch hr), fun r hr => by
          injection hr with e
          subst e
          exact ⟨hs1, hs2⟩⟩
      · injection h with e1 e2
        subst e1
        subst e2
        refine ⟨fun r hr => ?_, fun r hr => ?_⟩
        · injection hr with e
          subst e
          refine ⟨?_, hs2⟩
          show 1 ≤ s.quantity - c
          omega
        · injection hr with e
          subst e
          refine ⟨?_, hs2⟩
          show 1 ≤ min s.quantity c
          omega
      · injection h with e1 e2
        subst e1
        subst e2
        exact ⟨fun r hr => by
          injection hr with e
          subst e
          exact ⟨hs1, hs2⟩, fun r hr => nomatch hr⟩
  · intro s count slot2 taken hs hcount h
    obtain ⟨hs1, hs2⟩ := hs
    rcases hcount with rfl | ⟨c, rfl, hc⟩
    · unfold MaybeStack.try_take_all at h
      injection h with e
      injection e with e1 e2
      subst e1
      subst e2
      exact ⟨(fun r hr => nomatch hr), fun r hr => by
        injection hr with e3
        subst e3
        exact ⟨hs1, hs2⟩⟩
    · unfold MaybeStack.try_take_all at h
      dsimp only at h
      split_ifs at h with hstk he hgt
      · injection h with e
        injection e with e1 e2
        subst e1
        subst e2
        exact ⟨(fun r hr => nomatch hr), fun r hr => by
          injection hr with e3
          subst e3
          exact ⟨hs1, hs2⟩⟩
      · injection h with e
        injection e with e1 e2
        subst e1
        subst e2
        refine ⟨fun r hr => ?_, fun r hr => ?_⟩
        · injection hr with e3
          subst e3
          refine ⟨?_, hs2⟩
          show 1 ≤ s.quantity - c
          omega
        · injection hr with e3
          subst e3
          exact ⟨hc, hs2⟩
      · injection h with e
        injection e with e1 e2
        subst e1
        subst e2
        exact ⟨fun r hr => by
          injection hr with e3
          subst e3
          exact ⟨hs1, hs2⟩, fun r hr => nomatch hr⟩
      · injection h with e
        injection e with e1 e2
        subst e1
        subst e2
        exact ⟨fun r hr => by
          injection hr with e3
          subst e3
          exact ⟨hs1, hs2⟩, fun r hr => nomatch hr⟩
  · intro p s hps
    unfold ItemStack.from_proto at hps
    split_ifs at hps with h
    injection hps with e
    subst e
    exact h

/-- Witness for claim C9 (amended) on concrete merges, takes and a decode. -/
theorem c9_witness :
    (goodStack ⟨"i", 256, 256, true⟩
      ∧ ∀ r : ItemStack, (some ⟨"i", 44, 256, true⟩ : Option ItemStack) = some r → goodStack r)
    ∧ goodStack ⟨"i", 30, 256, true⟩
    ∧ ((∀ r : ItemStack, (some ⟨"i", 2, 10, true⟩ : Option ItemStack) = some r → goodStack r)
      ∧ ∀ r : ItemStack, (some ⟨"i", 3, 10, true⟩ : Option ItemStack) = some r → goodStack r)
    ∧ ((∀ r : ItemStack, (some ⟨"i", 2, 10, true⟩ : Option ItemStack) = some r → goodStack r)
      ∧ ∀ r : ItemStack, (some ⟨"i", 3, 10, true⟩ : Option ItemStack) = some r → goodStack r)
    ∧ (⟨"x", 5, 0, false⟩ : ItemStack).item_name ≠ "" :=
  ⟨c9_stack_invariant_preserved.1 ⟨"i", 200, 256, true⟩ ⟨"i", 100, 256, true⟩
      ⟨"i", 256, 256, true⟩ (some ⟨"i", 44, 256, true⟩)
      (by decide) (by decide) (by decide) rfl,
    c9_stack_invariant_preserved.2.1 ⟨"i", 20, 256, true⟩ ⟨"i", 10, 256, true⟩
      ⟨"i", 30, 256, true⟩ true (by decide) (by decide) (by decide) rfl,
    c9_stack_invariant_preserved.2.2.1 ⟨"i", 5, 10, true⟩ (some 3)
      (some ⟨"i", 2, 10, true⟩) (some ⟨"i", 3, 10, true⟩)
      (by decide) (Or.inr ⟨3, rfl, by decide⟩) rfl,
    c9_stack_invariant_preserved.2.2.2.1 ⟨"i", 5, 10, true⟩ (some 3)
      (some ⟨"i", 2, 10, true⟩) (some ⟨"i", 3, 10, true⟩)
      (by decide) (Or.inr ⟨3, rfl, by decide⟩) rfl,
    c9_stack_invariant_preserved.2.2.2.2 ⟨"x", 5, 0, false⟩ ⟨"x", 5, 0, false⟩ rfl⟩

end Cuberef
